import Mathlib

/-!
# Verification of the Data2Text content-planning / text-generation core

Shallow embedding of `src/planner.py`, `src/generator.py` and `src/main.py`.
Tensors whose numeric content is irrelevant to the verified properties are
abstract type parameters; the network layers become abstract function fields
of the module structures.  Index tensors, loop counters and losses are
concrete (`Nat`, `Rat`).  Python faults are modelled with `Except`/`Option`:
a single-slot cache that is still `None` makes the forward call return
`none` (an `AttributeError` on `None` in Python), and the training update
returns an `Except PyFault` value.
-/

namespace Data2Text

/-- Runtime faults the Python training update can raise.
* `stopIteration`: `next()` on an exhausted iterator;
* `intBackward`: `loss.backward()` when `loss` is still the Python integer
  literal `0` (an `AttributeError` on `int`), which happens exactly when no
  loop iteration contributed to the loss;
* `divByZero`: the `loss.item() / len_sequence` normalisation with
  `len_sequence == 0`;
* `noneCacheError`: a method call on a single-slot cache that is still `None`. -/
inductive PyFault where
  | stopIteration
  | intBackward
  | divByZero
  | noneCacheError
  deriving DecidableEq, Repr

/-- `torch.argmax(dim=1)` on a `(1, n)` tensor of scores: index of the first
maximal entry (0 on the empty list). -/
def listArgmax (l : List Rat) : Nat :=
  match l with
  | [] => 0
  | x :: xs => go xs x 0 1
where
  go : List Rat → Rat → Nat → Nat → Nat
  | [], _, best, _ => best
  | y :: ys, bv, best, i => if bv < y then go ys y i (i + 1) else go ys bv best (i + 1)

/-- `F.nll_loss(output, target)` for a batch of one: the negated log
probability stored at the target index. -/
def nllLoss (output : List Rat) (target : Nat) : Rat :=
  -(output.getD target 0)

/-! ## `src/planner.py`: `RecordEncoder` -/

/-- `RecordEncoder` from `src/planner.py`.  The batch dimension is 1
throughout (online learning), so a `(1, Records, hidden)` tensor is a
`List Row`.  The layers (`embedding` composed with the `view` flattening of
the four embedded record features, `relu_mlp`, `linear`, the `bmm` with the
transposed projection producing the `(Records, Records)` logits of type
`Att`, `softmax`, the attention application `bmmA`, `cat`, `sigmoid_mlp`,
and the final elementwise product `mulE`) are abstract function fields.
`encoded` is the single-slot cache `self.encoded`, set to `None` by
`__init__` and filled by `forward`. -/
structure RecordEncoder (Rec Row Att : Type) where
  encoded : Option (List Row)
  embedding : List Rec → List Row
  relu_mlp : List Row → List Row
  linear : List Row → List Row
  bmmT : List Row → List Row → Att
  softmax : Att → Att
  bmmA : Att → List Row → List Row
  cat2 : List Row → List Row → List Row
  sigmoid_mlp : List Row → List Row
  mulE : List Row → List Row → List Row

/-- `RecordEncoder.forward`: the content-selection gate.  Computes the gated
record representations, stores them in the `encoded` slot and returns them
(together with the updated module, since the embedding is pure). -/
def RecordEncoder.forward {Rec Row Att : Type} (e : RecordEncoder Rec Row Att)
    (records : List Rec) : List Row × RecordEncoder Rec Row Att :=
  let embedded := e.embedding records
  let emb_relu := e.relu_mlp embedded
  let emb_lin := e.linear emb_relu
  let logits := e.bmmT emb_relu emb_lin
  let attention := e.softmax logits
  let emb_att := e.bmmA attention emb_relu
  let emb_gate := e.sigmoid_mlp (e.cat2 emb_relu emb_att)
  let enc := e.mulE emb_gate emb_relu
  (enc, { e with encoded := some enc })

/-- `RecordEncoder.get_encodings`: `self.encoded.gather(1, index)` for a
batch of one — the rows of the cached encoding at the given indices.
Returns `none` when the cache is still `None` (Python raises an
`AttributeError` on `None.gather`). -/
def RecordEncoder.get_encodings {Rec Row Att : Type} [Inhabited Row]
    (e : RecordEncoder Rec Row Att) (index : List Nat) : Option (List Row) :=
  e.encoded.map fun enc => index.map fun i => enc.getD i default

/-! ## `src/planner.py`: `ContentPlanner` -/

/-- `ContentPlanner` from `src/planner.py`.  `selected_content` is the
single-slot cache set to `None` by `__init__` and filled by `init_hidden`.
`rnn` is the one-step LSTM `input → (hidden, cell) → (output, (hidden,
cell))`; `linear`, the `bmm` of the rnn output with the transposed
projection (folded into `bmmOut`, yielding the `(1, Records)` logits) and
`log_softmax` are abstract; `mean` and `zeros_like` serve `init_hidden`. -/
structure ContentPlanner (Rec Row Att : Type) where
  selected_content : Option (List Row)
  record_encoder : RecordEncoder Rec Row Att
  rnn : Row → Row × Row → Row × (Row × Row)
  linear : List Row → List Row
  bmmOut : Row → List Row → List Rat
  log_softmax : List Rat → List Rat
  mean : List Row → Row
  zeros_like : Row → Row

/-- `ContentPlanner.forward`: gather the selected-content row at the input
index, advance the LSTM one step, score the output against every record and
log-normalise.  Returns `none` when `selected_content` is still `None`. -/
def ContentPlanner.forward {Rec Row Att : Type} [Inhabited Row]
    (cp : ContentPlanner Rec Row Att) (index : Nat) (hidden cell : Row) :
    Option (List Rat × Row × Row) :=
  cp.selected_content.map fun sc =>
    let input_ := sc.getD index default
    let step := cp.rnn input_ (hidden, cell)
    let content_tp := cp.linear sc
    let logits := cp.bmmOut step.1 content_tp
    let attention := cp.log_softmax logits
    (attention, step.2.1, step.2.2)

/-- `ContentPlanner.init_hidden`: run the record encoder, store its output
in the `selected_content` slot, and return the mean-pooled initial hidden
state with a zero cell state (plus the updated module). -/
def ContentPlanner.init_hidden {Rec Row Att : Type}
    (cp : ContentPlanner Rec Row Att) (records : List Rec) :
    (Row × Row) × ContentPlanner Rec Row Att :=
  let encRes := cp.record_encoder.forward records
  let cp' := { cp with record_encoder := encRes.2, selected_content := some encRes.1 }
  let hidden := cp.mean encRes.1
  let cell := cp.zeros_like hidden
  ((hidden, cell), cp')

/-! ## `src/planner.py`: `train_planner._update` -/

/-- The `for record_pointer in content_plan_iterator:` loop of
`train_planner._update` (`src/planner.py`).  `plan` is the remainder of the
transposed gold content plan after `input_index = next(...)` consumed its
first entry; `loss` is `none` while the Python variable is still the
integer `0` and `some l` once a tensor; `len` is `len_sequence`.  The loop
breaks at the first gold pointer equal to the padding index, calls
`content_planner(input_index, hidden, cell)` (a fault when the
`selected_content` cache is `None`), accumulates `F.nll_loss`, and picks
the next input by teacher forcing or by the greedy argmax. -/
def plannerTrainLoop {Rec Row Att : Type} [Inhabited Row]
    (cp : ContentPlanner Rec Row Att) (pad : Nat) (tf : Bool) :
    List Nat → Nat → Row → Row → Option Rat → Nat →
    Except PyFault (Option Rat × Nat)
  | [], _, _, _, loss, len => .ok (loss, len)
  | rp :: rest, input, hidden, cell, loss, len =>
    if rp = pad then .ok (loss, len)
    else
      match cp.forward input hidden cell with
      | none => .error .noneCacheError
      | some (output, hidden, cell) =>
        let loss := some (loss.getD 0 + nllLoss output rp)
        let input := if tf then rp else listArgmax output
        plannerTrainLoop cp pad tf rest input hidden cell loss (len + 1)

/-- `train_planner._update` (`src/planner.py`): one online training step.
`rng` is the stream of values produced by `random()`; the code draws
exactly once, before the decode loop (`use_teacher_forcing = True if
random() < teacher_forcing_ratio else False`).  After the loop,
`loss.backward()` faults when `loss` is still the integer `0`, and the
returned value is `loss.item() / len_sequence`. -/
def plannerUpdate {Rec Row Att : Type} [Inhabited Row]
    (cp : ContentPlanner Rec Row Att) (records : List Rec) (plan : List Nat)
    (pad : Nat) (tfProb : Rat) (rng : Nat → Rat) : Except PyFault Rat :=
  let tf := decide (rng 0 < tfProb)
  let init := cp.init_hidden records
  match plan with
  | [] => .error .stopIteration
  | input :: rest =>
    match plannerTrainLoop init.2 pad tf rest input init.1.1 init.1.2 none 0 with
    | .error e => .error e
    | .ok (none, _) => .error .intBackward
    | .ok (some loss, len) =>
      if len = 0 then .error .divByZero else .ok (loss / len)

/-- Modelled from the spec: the decode loop as the spec describes it, where
"each decode step independently feeds the gold next token with probability
p, else the greedy argmax" — i.e. a fresh draw `rng k` from the random
source at every decode step `k`, instead of the single pre-loop draw the
code performs.  Used only for the refinement comparison. -/
def plannerTrainLoopPerStepDraw {Rec Row Att : Type} [Inhabited Row]
    (cp : ContentPlanner Rec Row Att) (pad : Nat) (tfProb : Rat)
    (rng : Nat → Rat) :
    List Nat → Nat → Nat → Row → Row → Option Rat → Nat →
    Except PyFault (Option Rat × Nat)
  | [], _, _, _, _, loss, len => .ok (loss, len)
  | rp :: rest, k, input, hidden, cell, loss, len =>
    if rp = pad then .ok (loss, len)
    else
      match cp.forward input hidden cell with
      | none => .error .noneCacheError
      | some (output, hidden, cell) =>
        let loss := some (loss.getD 0 + nllLoss output rp)
        let input := if rng k < tfProb then rp else listArgmax output
        plannerTrainLoopPerStepDraw cp pad tfProb rng rest (k + 1) input hidden cell
          loss (len + 1)

/-- Modelled from the spec: `plannerUpdate` with the per-decode-step draw of
`plannerTrainLoopPerStepDraw` in place of the single pre-loop draw. -/
def plannerUpdatePerStepDraw {Rec Row Att : Type} [Inhabited Row]
    (cp : ContentPlanner Rec Row Att) (records : List Rec) (plan : List Nat)
    (pad : Nat) (tfProb : Rat) (rng : Nat → Rat) : Except PyFault Rat :=
  let init := cp.init_hidden records
  match plan with
  | [] => .error .stopIteration
  | input :: rest =>
    match plannerTrainLoopPerStepDraw init.2 pad tfProb rng rest 0 input
        init.1.1 init.1.2 none 0 with
    | .error e => .error e
    | .ok (none, _) => .error .intBackward
    | .ok (some loss, len) =>
      if len = 0 then .error .divByZero else .ok (loss / len)

/-! ## `src/planner.py`: `eval_planner._evaluate` -/

/-- The `while len(generated_plan) < content_plan.size(1):` loop of
`eval_planner._evaluate` (`src/planner.py`): greedy decoding that breaks —
without appending — as soon as the argmax equals the EOS index, and
otherwise appends the argmax and feeds it back as the next input.
`maxLen` is `content_plan.size(1)`, the padded gold-plan length. -/
def plannerEvalLoop {Rec Row Att : Type} [Inhabited Row]
    (cp : ContentPlanner Rec Row Att) (eos maxLen : Nat) (input : Nat)
    (hidden cell : Row) (gen : List Nat) : Option (List Nat) :=
  if _h : gen.length < maxLen then
    match cp.forward input hidden cell with
    | none => none
    | some (output, hidden, cell) =>
      let next := listArgmax output
      if next = eos then some gen
      else plannerEvalLoop cp eos maxLen next hidden cell (gen ++ [next])
  else some gen
termination_by maxLen - gen.length
decreasing_by simp only [List.length_append, List.length_cons, List.length_nil]; omega

/-- The per-example body of `eval_planner._evaluate`: `init_hidden` on the
records, start from the BOS index and run the greedy decode loop on an
empty generated plan. -/
def plannerEvaluate {Rec Row Att : Type} [Inhabited Row]
    (cp : ContentPlanner Rec Row Att) (records : List Rec)
    (bos eos maxLen : Nat) : Option (List Nat) :=
  let init := cp.init_hidden records
  plannerEvalLoop init.2 eos maxLen bos init.1.1 init.1.2 []

/-! ## `src/generator.py`: `TextGenerator` -/

/-- `TextGenerator` from `src/generator.py`.  All non-scalar tensors share
the abstract type `V`; the copy-gate probability is a `Rat`.  `encoded` is
the single-slot cache `self.encoded`, `None` after `__init__` and filled by
`init_hidden`.  `decoder_rnn` maps the embedded input and the `(hidden,
cell)` pair to `(output, (h_n, c_n))` — the code binds the output sequence
as `hidden` and discards `h_n` (`hidden, (_, cell) = self.decoder_rnn(...)`).
`argmax` is `torch.argmax(dim=1)` on an abstract distribution tensor. -/
structure TextGenerator (V : Type) where
  encoded : Option V
  embedding : Nat → V
  decoder_rnn : V → V × V → V × (V × V)
  linear : V → V
  transpose : V → V
  bmm : V → V → V
  softmax : V → V
  cat2 : V → V → V
  tanh_mlp : V → V
  soft_mlp : V → V
  sig_copy : V → Rat
  logT : V → V
  reshape : V → V
  argmax : V → Nat
  encoder_rnn : V → V × (V × V)

/-- `TextGenerator.forward` (`src/generator.py`): one decoder step.  Embeds
the word, advances the recurrent cell, attends over the cached `encoded`
memory, and returns `(out_prob, log_attention, p_copy, new_hidden, cell)`
where `new_hidden` is the reshaped `tanh_mlp` of the concatenated recurrent
output and attention context, and `cell` is the recurrent cell state.
Returns `none` when `encoded` is still `None`. -/
def TextGenerator.forward {V : Type} (g : TextGenerator V) (word : Nat)
    (hidden cell : V) : Option (V × V × Rat × V × V) :=
  g.encoded.map fun encoded =>
    let embedded := g.embedding word
    let step := g.decoder_rnn embedded (hidden, cell)
    let hidden := step.1
    let cell := step.2.2
    let enc_lin := g.transpose (g.linear encoded)
    let attention := g.softmax (g.bmm hidden enc_lin)
    let selected := g.bmm attention encoded
    let new_hidden := g.tanh_mlp (g.cat2 hidden selected)
    let out_prob := g.soft_mlp new_hidden
    let p_copy := g.sig_copy new_hidden
    let log_attention := g.logT attention
    (out_prob, log_attention, p_copy, g.reshape new_hidden, cell)

/-- `TextGenerator.encode_recods`: the bidirectional encoder pass over the
planned record subsequence. -/
def TextGenerator.encode_recods {V : Type} (g : TextGenerator V)
    (records : V) : V × (V × V) :=
  g.encoder_rnn records

/-- `TextGenerator.init_hidden`: encode the records, store the memory in
`encoded` and return the final hidden/cell states (plus the updated
module). -/
def TextGenerator.init_hidden {V : Type} (g : TextGenerator V)
    (records : V) : (V × V) × TextGenerator V :=
  let res := g.encode_recods records
  ((res.2.1, res.2.2), { g with encoded := some res.1 })

/-- The two torch loss functions used by `train_generator._update`,
abstracted: `F.nll_loss` on an abstract distribution tensor and
`F.binary_cross_entropy` of the copy gate against the 0/1 copy target. -/
structure TorchOps (V : Type) where
  nll_loss : V → Nat → Rat
  binary_cross_entropy : Rat → Bool → Rat

/-! ## `src/generator.py`: `train_generator._update` -/

/-- The `for word, copy_tgt in text_iter:` loop of
`train_generator._update` (`src/generator.py`).  `text` is the remainder of
the zipped `(text, copy_tgts)` pairs after the initial `next()`;
`copyIdxs` the remaining copy-index iterator.  The loop breaks at the first
padding word, accumulates the binary-cross-entropy of the copy gate plus
either the copy-pointer or the vocabulary negative log-likelihood, and
chooses the next input by teacher forcing (the gold copy value or gold
word) or by the model's copy-gate/argmax prediction. -/
def generatorTrainLoop {V : Type} (g : TextGenerator V) (ops : TorchOps V)
    (pad : Nat) (tf : Bool) (copy_values : Nat → Nat) :
    List (Nat × Bool) → List Nat → Nat → V → V → Option Rat → Nat →
    Except PyFault (Option Rat × Nat)
  | [], _, _, _, _, loss, len => .ok (loss, len)
  | (word, copy_tgt) :: rest, copyIdxs, input, hidden, cell, loss, len =>
    if word = pad then .ok (loss, len)
    else
      match g.forward input hidden cell with
      | none => .error .noneCacheError
      | some (out_prob, copy_prob, p_copy, hidden, cell) =>
        let loss0 := loss.getD 0 + ops.binary_cross_entropy p_copy copy_tgt
        match copy_tgt, copyIdxs with
        | true, [] => .error .stopIteration
        | true, ci :: cis =>
          let loss := some (loss0 + ops.nll_loss copy_prob ci)
          let input :=
            if tf then copy_values ci
            else if (1 : Rat)/2 < p_copy then copy_values (g.argmax copy_prob)
            else g.argmax out_prob
          generatorTrainLoop g ops pad tf copy_values rest cis input hidden cell
            loss (len + 1)
        | false, cis =>
          let loss := some (loss0 + ops.nll_loss out_prob word)
          let input :=
            if tf then word
            else if (1 : Rat)/2 < p_copy then copy_values (g.argmax copy_prob)
            else g.argmax out_prob
          generatorTrainLoop g ops pad tf copy_values rest cis input hidden cell
            loss (len + 1)

/-- `train_generator._update` (`src/generator.py`): one online training
step.  The code draws from `random()` exactly once, before the decode loop;
`records` stands for the content plan after the nonzero-gather
preprocessing.  After the loop, `loss.backward()` faults when `loss` is
still the integer `0`, and the returned value is
`loss.item() / len_sequence`. -/
def generatorUpdate {V : Type} (g : TextGenerator V) (ops : TorchOps V)
    (records : V) (text : List (Nat × Bool)) (copyIdxs : List Nat)
    (copy_values : Nat → Nat) (pad : Nat) (tfProb : Rat) (rng : Nat → Rat) :
    Except PyFault Rat :=
  let tf := decide (rng 0 < tfProb)
  let init := g.init_hidden records
  match text with
  | [] => .error .stopIteration
  | (input, _) :: rest =>
    match generatorTrainLoop init.2 ops pad tf copy_values rest copyIdxs input
        init.1.1 init.1.2 none 0 with
    | .error e => .error e
    | .ok (none, _) => .error .intBackward
    | .ok (some loss, len) =>
      if len = 0 then .error .divByZero else .ok (loss / len)

/-- Modelled from the spec: the generator decode loop with a fresh draw
`rng k` from the random source at every decode step `k`, as the spec's
"choice, per decode step, ... selected by a single draw from a random
source" describes, instead of the single pre-loop draw the code performs.
Used only for the refinement comparison. -/
def generatorTrainLoopPerStepDraw {V : Type} (g : TextGenerator V)
    (ops : TorchOps V) (pad : Nat) (tfProb : Rat) (rng : Nat → Rat)
    (copy_values : Nat → Nat) :
    List (Nat × Bool) → List Nat → Nat → Nat → V → V → Option Rat → Nat →
    Except PyFault (Option Rat × Nat)
  | [], _, _, _, _, _, loss, len => .ok (loss, len)
  | (word, copy_tgt) :: rest, copyIdxs, k, input, hidden, cell, loss, len =>
    if word = pad then .ok (loss, len)
    else
      match g.forward input hidden cell with
      | none => .error .noneCacheError
      | some (out_prob, copy_prob, p_copy, hidden, cell) =>
        let loss0 := loss.getD 0 + ops.binary_cross_entropy p_copy copy_tgt
        match copy_tgt, copyIdxs with
        | true, [] => .error .stopIteration
        | true, ci :: cis =>
          let loss := some (loss0 + ops.nll_loss copy_prob ci)
          let input :=
            if rng k < tfProb then copy_values ci
            else if (1 : Rat)/2 < p_copy then copy_values (g.argmax copy_prob)
            else g.argmax out_prob
          generatorTrainLoopPerStepDraw g ops pad tfProb rng copy_values rest cis
            (k + 1) input hidden cell loss (len + 1)
        | false, cis =>
          let loss := some (loss0 + ops.nll_loss out_prob word)
          let input :=
            if rng k < tfProb then word
            else if (1 : Rat)/2 < p_copy then copy_values (g.argmax copy_prob)
            else g.argmax out_prob
          generatorTrainLoopPerStepDraw g ops pad tfProb rng copy_values rest cis
            (k + 1) input hidden cell loss (len + 1)

/-! ## `src/generator.py`: `eval_generator.test_random` -/

/-- The `while input_word.cpu() != data.vocab[EOS_WORD] and len(text) <=
500:` loop of `eval_generator.test_random` (`src/generator.py`): greedy
generation that at each step picks the copy value at the copy-pointer
argmax when the copy gate exceeds one half, else the vocabulary argmax,
appends the chosen word (including a chosen EOS) and feeds it back. -/
def testRandomLoop {V : Type} (g : TextGenerator V) (copy_values : Nat → Nat)
    (eos : Nat) (input : Nat) (hidden cell : V) (text : List Nat) :
    Option (List Nat) :=
  if _h : input ≠ eos ∧ text.length ≤ 500 then
    match g.forward input hidden cell with
    | none => none
    | some (out_prob, copy_prob, p_copy, hidden, cell) =>
      let next :=
        if (1 : Rat)/2 < p_copy then copy_values (g.argmax copy_prob)
        else g.argmax out_prob
      testRandomLoop g copy_values eos next hidden cell (text ++ [next])
  else some text
termination_by 501 - text.length
decreasing_by simp only [List.length_append, List.length_cons, List.length_nil]; omega

/-- The per-example body of `eval_generator.test_random`: `init_hidden` on
the planned records, start the text as the singleton BOS list with BOS as
the first input, and run the generation loop. -/
def test_random {V : Type} (g : TextGenerator V) (records : V)
    (copy_values : Nat → Nat) (bos eos : Nat) : Option (List Nat) :=
  let init := g.init_hidden records
  testRandomLoop init.2 copy_values eos bos init.1.1 init.1.2 [bos]

/-! ## Startup: `src/main.py`, `get_generator`, `load_planner` -/

/-- The externally visible operations of the startup and loader code. -/
inductive StartupAction where
  | getExtractor
  | evalExtractor
  | trainPlanner
  | loadGeneratorFile
  | makeModelsDir
  | trainGenerator
  | saveGeneratorFile
  deriving DecidableEq, Repr

/-- `src/main.py` top level: `get_extractor()`, `eval_extractor(...)`,
`train_planner(extractor)` — run unconditionally, with no check of any
persisted model file.  The filesystem argument models `os.path.exists`. -/
def mainActions (_fs : String → Bool) : List StartupAction :=
  [.getExtractor, .evalExtractor, .trainPlanner]

/-- `get_generator` (`src/generator.py`): load the persisted generator when
`models/text_generator.pt` exists; otherwise create the `models` directory
if needed, train, and save. -/
def getGeneratorActions (fs : String → Bool) : List StartupAction :=
  if fs "models/text_generator.pt" then [.loadGeneratorFile]
  else (if fs "models" then [] else [.makeModelsDir]) ++
    [.trainGenerator, .saveGeneratorFile]

/-- Result of `load_planner` when the persisted file is present. -/
inductive PlannerLoadResult where
  | loadedFromFile
  deriving DecidableEq, Repr

/-- `load_planner` (`src/planner.py`): load `models/content_planner.pt`
when it exists; otherwise fall off the end of the function (`None`). -/
def load_planner (fs : String → Bool) : Option PlannerLoadResult :=
  if fs "models/content_planner.pt" then some .loadedFromFile else none

/-- `planner_is_available` (`src/planner.py`). -/
def planner_is_available (fs : String → Bool) : Bool :=
  fs "models/content_planner.pt"

/-! ## Concrete instances for counterexamples and witnesses -/

/-- A concrete record encoder over `Nat` rows whose pipeline produces the
record encodings `[10, 20, 30]`. -/
def cRecordEncoder : RecordEncoder Nat Nat Nat where
  encoded := none
  embedding := fun _ => []
  relu_mlp := fun _ => []
  linear := fun l => l
  bmmT := fun _ _ => 0
  softmax := fun a => a
  bmmA := fun _ _ => []
  cat2 := fun a _ => a
  sigmoid_mlp := fun l => l
  mulE := fun _ _ => [10, 20, 30]

/-- A concrete content planner over `Nat` rows: the rnn output is the
gathered row, and the score of record `j` is `row * sc[j]`, so the greedy
argmax always points at the largest record encoding. -/
def cPlanner : ContentPlanner Nat Nat Nat where
  selected_content := none
  record_encoder := cRecordEncoder
  rnn := fun r hc => (r, hc)
  linear := fun l => l
  bmmOut := fun out tp => tp.map fun r => ((out * r : Nat) : Rat)
  log_softmax := fun l => l
  mean := fun _ => 0
  zeros_like := fun _ => 0

/-- A concrete text generator over `V := Nat` with all intermediate values
kept distinguishable. -/
def cGenerator : TextGenerator Nat where
  encoded := some 5
  embedding := fun w => w
  decoder_rnn := fun e hc => (e + 100 * hc.1, (e + 1000 * hc.1, hc.2 + 1))
  linear := fun v => v
  transpose := fun v => v
  bmm := fun a b => a + b
  softmax := fun v => v
  cat2 := fun a b => 10000 * a + b
  tanh_mlp := fun v => v + 7
  soft_mlp := fun v => v
  sig_copy := fun _ => 0
  logT := fun v => v
  reshape := fun v => v + 3
  argmax := fun v => v % 4
  encoder_rnn := fun v => (v, (v + 1, v + 2))

/-- Concrete loss functions for the generator training loop. -/
def cOps : TorchOps Nat where
  nll_loss := fun v t => -((v : Rat) + t)
  binary_cross_entropy := fun p b => p + (if b then 1 else 0)

/-- The random stream used by the teacher-forcing counterexample: first
draw 3/4, later draws 1/4. -/
def cRng : Nat → Rat := fun k => if k = 0 then 3/4 else 1/4

/-! ## Helper lemmas -/

/-- The training decode loop of the planner only ever sees the prefix of
the gold plan before the first padding entry: the `break` makes everything
from the first padding position on (that position included) irrelevant to
the loss, the sequence length and the final state. -/
theorem plannerTrainLoop_takeWhile {Rec Row Att : Type} [Inhabited Row]
    (cp : ContentPlanner Rec Row Att) (pad : Nat) (tf : Bool) :
    ∀ (plan : List Nat) (input : Nat) (hidden cell : Row) (loss : Option Rat)
      (len : Nat),
    plannerTrainLoop cp pad tf plan input hidden cell loss len =
      plannerTrainLoop cp pad tf (plan.takeWhile (· != pad)) input hidden cell
        loss len := by
  intro plan
  induction plan with
  | nil => intro input hidden cell loss len; rfl
  | cons rp rest ih =>
    intro input hidden cell loss len
    by_cases h : rp = pad
    · subst h
      simp [plannerTrainLoop, List.takeWhile_cons]
    · have hb : (rp != pad) = true := by simpa using h
      rw [List.takeWhile_cons, hb]
      simp only [plannerTrainLoop, if_neg h]
      cases cp.forward input hidden cell with
      | none => rfl
      | some val => exact ih _ _ _ _ _

/-- In the planner training loop, the loss variable is still the Python
integer `0` exactly when no iteration ran: the invariant
`loss = none ↔ len = 0` is preserved. -/
theorem plannerTrainLoop_none_iff {Rec Row Att : Type} [Inhabited Row]
    (cp : ContentPlanner Rec Row Att) (pad : Nat) (tf : Bool) :
    ∀ (plan : List Nat) (input : Nat) (hidden cell : Row) (loss : Option Rat)
      (len : Nat) (res : Option Rat × Nat),
    (loss = none ↔ len = 0) →
    plannerTrainLoop cp pad tf plan input hidden cell loss len = .ok res →
    (res.1 = none ↔ res.2 = 0) := by
  intro plan
  induction plan with
  | nil =>
    intro input hidden cell loss len res hinv hres
    cases hres; simpa using hinv
  | cons rp rest ih =>
    intro input hidden cell loss len res hinv hres
    by_cases h : rp = pad
    · subst h
      simp only [plannerTrainLoop, if_pos rfl] at hres
      cases hres; simpa using hinv
    · simp only [plannerTrainLoop, if_neg h] at hres
      cases hfw : cp.forward input hidden cell with
      | none => rw [hfw] at hres; cases hres
      | some val =>
        rw [hfw] at hres
        exact ih _ _ _ _ _ _ (by simp) hres

/-- The planner training loop raises no division-by-zero fault. -/
theorem plannerTrainLoop_ne_div {Rec Row Att : Type} [Inhabited Row]
    (cp : ContentPlanner Rec Row Att) (pad : Nat) (tf : Bool) :
    ∀ (plan : List Nat) (input : Nat) (hidden cell : Row) (loss : Option Rat)
      (len : Nat),
    plannerTrainLoop cp pad tf plan input hidden cell loss len ≠
      .error .divByZero := by
  intro plan
  induction plan with
  | nil => intro input hidden cell loss len h; cases h
  | cons rp rest ih =>
    intro input hidden cell loss len h
    by_cases hp : rp = pad
    · subst hp; simp only [plannerTrainLoop, if_pos rfl] at h; cases h
    · simp only [plannerTrainLoop, if_neg hp] at h
      cases hfw : cp.forward input hidden cell with
      | none => rw [hfw] at h; cases h
      | some val => rw [hfw] at h; exact ih _ _ _ _ _ h

/-- `plannerUpdate` can fault, but never with a division by zero: the
length normalisation at the end is only reached when at least one decode
step ran, because `loss.backward()` faults first on the integer `0`. -/
theorem plannerUpdate_ne_div {Rec Row Att : Type} [Inhabited Row]
    (cp : ContentPlanner Rec Row Att) (records : List Rec) (plan : List Nat)
    (pad : Nat) (tfProb : Rat) (rng : Nat → Rat) :
    plannerUpdate cp records plan pad tfProb rng ≠ .error .divByZero := by
  unfold plannerUpdate
  cases plan with
  | nil => intro h; cases h
  | cons input rest =>
    cases hres : plannerTrainLoop (cp.init_hidden records).2 pad
        (decide (rng 0 < tfProb)) rest input (cp.init_hidden records).1.1
        (cp.init_hidden records).1.2 none 0 with
    | error e =>
      simp only [hres]
      intro h
      cases h
      exact plannerTrainLoop_ne_div _ _ _ _ _ _ _ _ _ hres
    | ok res =>
      have hinv := plannerTrainLoop_none_iff _ _ _ _ _ _ _ _ _ _
        (by simp) hres
      simp only [hres]
      cases hres1 : res.1 with
      | none =>
        obtain ⟨l, n⟩ := res
        simp only at hres1
        subst hres1
        intro h; cases h
      | some l =>
        obtain ⟨l', n⟩ := res
        simp only at hres1
        subst hres1
        have hn : n ≠ 0 := by
          intro h0
          exact Option.some_ne_none _ (hinv.mpr h0)
        simp only [if_neg hn]
        intro h; cases h

/-- In the generator training loop, the loss variable is still the Python
integer `0` exactly when no iteration ran. -/
theorem generatorTrainLoop_none_iff {V : Type} (g : TextGenerator V)
    (ops : TorchOps V) (pad : Nat) (tf : Bool) (copy_values : Nat → Nat) :
    ∀ (text : List (Nat × Bool)) (copyIdxs : List Nat) (input : Nat)
      (hidden cell : V) (loss : Option Rat) (len : Nat)
      (res : Option Rat × Nat),
    (loss = none ↔ len = 0) →
    generatorTrainLoop g ops pad tf copy_values text copyIdxs input hidden cell
      loss len = .ok res →
    (res.1 = none ↔ res.2 = 0) := by
  intro text
  induction text with
  | nil =>
    intro copyIdxs input hidden cell loss len res hinv hres
    cases hres; simpa using hinv
  | cons wc rest ih =>
    intro copyIdxs input hidden cell loss len res hinv hres
    obtain ⟨word, copy_tgt⟩ := wc
    by_cases h : word = pad
    · subst h
      simp only [generatorTrainLoop, if_pos rfl] at hres
      cases hres; simpa using hinv
    · simp only [generatorTrainLoop, if_neg h] at hres
      cases hfw : g.forward input hidden cell with
      | none => rw [hfw] at hres; cases hres
      | some val =>
        rw [hfw] at hres
        obtain ⟨out_prob, copy_prob, p_copy, hidden', cell'⟩ := val
        cases copy_tgt with
        | false => exact ih _ _ _ _ _ _ _ (by simp) hres
        | true =>
          cases copyIdxs with
          | nil => cases hres
          | cons ci cis => exact ih _ _ _ _ _ _ _ (by simp) hres

/-- The generator training loop raises no division-by-zero fault. -/
theorem generatorTrainLoop_ne_div {V : Type} (g : TextGenerator V)
    (ops : TorchOps V) (pad : Nat) (tf : Bool) (copy_values : Nat → Nat) :
    ∀ (text : List (Nat × Bool)) (copyIdxs : List Nat) (input : Nat)
      (hidden cell : V) (loss : Option Rat) (len : Nat),
    generatorTrainLoop g ops pad tf copy_values text copyIdxs input hidden cell
      loss len ≠ .error .divByZero := by
  intro text
  induction text with
  | nil => intro copyIdxs input hidden cell loss len h; cases h
  | cons wc rest ih =>
    intro copyIdxs input hidden cell loss len h
    obtain ⟨word, copy_tgt⟩ := wc
    by_cases hw : word = pad
    · subst hw; simp only [generatorTrainLoop, if_pos rfl] at h; cases h
    · simp only [generatorTrainLoop, if_neg hw] at h
      cases hfw : g.forward input hidden cell with
      | none => rw [hfw] at h; cases h
      | some val =>
        rw [hfw] at h
        obtain ⟨out_prob, copy_prob, p_copy, hidden', cell'⟩ := val
        cases copy_tgt with
        | false => exact ih _ _ _ _ _ _ h
        | true =>
          cases copyIdxs with
          | nil => cases h
          | cons ci cis => exact ih _ _ _ _ _ _ h

/-- `generatorUpdate` can fault, but never with a division by zero. -/
theorem generatorUpdate_ne_div {V : Type} (g : TextGenerator V)
    (ops : TorchOps V) (records : V) (text : List (Nat × Bool))
    (copyIdxs : List Nat) (copy_values : Nat → Nat) (pad : Nat)
    (tfProb : Rat) (rng : Nat → Rat) :
    generatorUpdate g ops records text copyIdxs copy_values pad tfProb rng ≠
      .error .divByZero := by
  unfold generatorUpdate
  cases text with
  | nil => intro h; cases h
  | cons iw rest =>
    obtain ⟨input, b⟩ := iw
    cases hres : generatorTrainLoop (g.init_hidden records).2 ops pad
        (decide (rng 0 < tfProb)) copy_values rest copyIdxs input
        (g.init_hidden records).1.1 (g.init_hidden records).1.2 none 0 with
    | error e =>
      simp only [hres]
      intro h
      cases h
      exact generatorTrainLoop_ne_div _ _ _ _ _ _ _ _ _ _ _ _ hres
    | ok res =>
      have hinv := generatorTrainLoop_none_iff _ _ _ _ _ _ _ _ _ _ _ _ _
        (by simp) hres
      simp only [hres]
      cases hres1 : res.1 with
      | none =>
        obtain ⟨l, n⟩ := res
        simp only at hres1
        subst hres1
        intro h; cases h
      | some l =>
        obtain ⟨l', n⟩ := res
        simp only at hres1
        subst hres1
        have hn : n ≠ 0 := by
          intro h0
          exact Option.some_ne_none _ (hinv.mpr h0)
        simp only [if_neg hn]
        intro h; cases h

/-- Behaviour of the planner's greedy decoding loop: with a filled
`selected_content` cache it returns (no fault), the generated plan stays
within the length bound, and the EOS index is never appended. -/
theorem plannerEvalLoop_spec {Rec Row Att : Type} [Inhabited Row] :
    ∀ (fuel : Nat) (cp : ContentPlanner Rec Row Att) (sc : List Row)
      (eos maxLen input : Nat) (hidden cell : Row) (gen : List Nat),
    maxLen - gen.length ≤ fuel →
    cp.selected_content = some sc →
    gen.length ≤ maxLen → eos ∉ gen →
    ∃ res, plannerEvalLoop cp eos maxLen input hidden cell gen = some res ∧
      res.length ≤ maxLen ∧ eos ∉ res := by
  intro fuel
  induction fuel with
  | zero =>
    intro cp sc eos maxLen input hidden cell gen hfuel _ hlen hmem
    have heq : gen.length = maxLen := by omega
    rw [plannerEvalLoop]
    simp only [hfuel, hlen]
    rw [dif_neg (by omega)]
    exact ⟨gen, rfl, by omega, hmem⟩
  | succ fuel ih =>
    intro cp sc eos maxLen input hidden cell gen hfuel hsc hlen hmem
    rw [plannerEvalLoop]
    by_cases hcond : gen.length < maxLen
    · rw [dif_pos hcond]
      have hfw : cp.forward input hidden cell =
          some (let input_ := sc.getD input default
                let step := cp.rnn input_ (hidden, cell)
                (cp.log_softmax (cp.bmmOut step.1 (cp.linear sc)),
                  step.2.1, step.2.2)) := by
        unfold ContentPlanner.forward
        rw [hsc]
        rfl
      rw [hfw]
      by_cases heos : listArgmax (let input_ := sc.getD input default
          let step := cp.rnn input_ (hidden, cell)
          cp.log_softmax (cp.bmmOut step.1 (cp.linear sc))) = eos
      · simp only [heos, if_pos rfl]
        exact ⟨gen, rfl, by omega, hmem⟩
      · simp only [if_neg heos]
        refine ih cp sc eos maxLen _ _ _ (gen ++ [_]) ?_ hsc ?_ ?_
        · simp only [List.length_append, List.length_cons, List.length_nil]
          omega
        · simp only [List.length_append, List.length_cons, List.length_nil]
          omega
        · intro hmem'
          rcases List.mem_append.mp hmem' with h | h
          · exact hmem h
          · rcases List.mem_singleton.mp h with h
            exact heos h.symm
    · rw [dif_neg hcond]
      exact ⟨gen, rfl, hlen, hmem⟩

/-- Behaviour of the generator's greedy generation loop: with a filled
`encoded` cache it returns (no fault), the text stays within 501 entries
(the initial BOS plus at most 500 generated words), its first entry is
preserved, and it ends either with a chosen EOS or by hitting the cap
exactly. -/
theorem testRandomLoop_spec {V : Type} :
    ∀ (fuel : Nat) (g : TextGenerator V) (enc : V) (copy_values : Nat → Nat)
      (eos input : Nat) (hidden cell : V) (text : List Nat),
    501 - text.length ≤ fuel →
    g.encoded = some enc →
    text ≠ [] → text.getLast? = some input → text.length ≤ 501 →
    ∃ res, testRandomLoop g copy_values eos input hidden cell text = some res ∧
      res.length ≤ 501 ∧ res.head? = text.head? ∧
      (res.getLast? = some eos ∨ res.length = 501) := by
  intro fuel
  induction fuel with
  | zero =>
    intro g enc copy_values eos input hidden cell text hfuel henc hne hlast hlen
    have heq : text.length = 501 := by omega
    rw [testRandomLoop]
    rw [dif_neg (by omega)]
    exact ⟨text, rfl, by omega, rfl, Or.inr heq⟩
  | succ fuel ih =>
    intro g enc copy_values eos input hidden cell text hfuel henc hne hlast hlen
    rw [testRandomLoop]
    by_cases hcond : input ≠ eos ∧ text.length ≤ 500
    · rw [dif_pos hcond]
      have hfw : g.forward input hidden cell =
          some (let step := g.decoder_rnn (g.embedding input) (hidden, cell)
                let attention := g.softmax (g.bmm step.1
                  (g.transpose (g.linear enc)))
                let nh := g.tanh_mlp (g.cat2 step.1 (g.bmm attention enc))
                (g.soft_mlp nh, g.logT attention, g.sig_copy nh,
                  g.reshape nh, step.2.2)) := by
        unfold TextGenerator.forward
        rw [henc]
        rfl
      rw [hfw]
      dsimp only
      obtain ⟨res, hres, hlen', hhead, hlast'⟩ :=
        ih g enc copy_values eos _ _ _ (text ++ [_])
          (by simp only [List.length_append, List.length_cons, List.length_nil]
              omega)
          henc (fun h => by simp at h) (List.getLast?_concat text)
          (by simp only [List.length_append, List.length_cons, List.length_nil]
              omega)
      refine ⟨res, hres, hlen', ?_, hlast'⟩
      rw [hhead]
      cases text with
      | nil => exact absurd rfl hne
      | cons a t => rfl
    · rw [dif_neg hcond]
      rcases Decidable.not_and_iff_or_not.mp hcond with h | h
      · have hie : input = eos := Decidable.not_not.mp h
        exact ⟨text, rfl, hlen, rfl, Or.inl (hie ▸ hlast)⟩
      · have h501 : text.length = 501 := by omega
        exact ⟨text, rfl, hlen, rfl, Or.inr h501⟩

/-- The spec's per-step-draw planner loop collapses to the code's
single-branch loop when every draw returns the same value `r`: the code's
behaviour equals a per-step process only when all draws coincide with the
one pre-loop draw. -/
theorem plannerPerStepDraw_const {Rec Row Att : Type} [Inhabited Row]
    (cp : ContentPlanner Rec Row Att) (pad : Nat) (tfProb r : Rat) :
    ∀ (plan : List Nat) (k input : Nat) (hidden cell : Row)
      (loss : Option Rat) (len : Nat),
    plannerTrainLoopPerStepDraw cp pad tfProb (fun _ => r) plan k input hidden
        cell loss len =
      plannerTrainLoop cp pad (decide (r < tfProb)) plan input hidden cell
        loss len := by
  intro plan
  induction plan with
  | nil => intro k input hidden cell loss len; rfl
  | cons rp rest ih =>
    intro k input hidden cell loss len
    by_cases h : rp = pad
    · subst h
      simp [plannerTrainLoopPerStepDraw, plannerTrainLoop]
    · simp only [plannerTrainLoopPerStepDraw, plannerTrainLoop, if_neg h]
      cases cp.forward input hidden cell with
      | none => rfl
      | some val =>
        dsimp only
        by_cases hr : r < tfProb
        · rw [if_pos hr, if_pos (by simpa using hr)]
          exact ih _ _ _ _ _ _
        · rw [if_neg hr, if_neg (by simpa using hr)]
          exact ih _ _ _ _ _ _

/-- The spec's per-step-draw generator loop collapses to the code's
single-branch loop when every draw returns the same value `r`. -/
theorem generatorPerStepDraw_const {V : Type} (g : TextGenerator V)
    (ops : TorchOps V) (pad : Nat) (tfProb r : Rat) (copy_values : Nat → Nat) :
    ∀ (text : List (Nat × Bool)) (copyIdxs : List Nat) (k input : Nat)
      (hidden cell : V) (loss : Option Rat) (len : Nat),
    generatorTrainLoopPerStepDraw g ops pad tfProb (fun _ => r) copy_values
        text copyIdxs k input hidden cell loss len =
      generatorTrainLoop g ops pad (decide (r < tfProb)) copy_values text
        copyIdxs input hidden cell loss len := by
  intro text
  induction text with
  | nil => intro copyIdxs k input hidden cell loss len; rfl
  | cons wc rest ih =>
    intro copyIdxs k input hidden cell loss len
    obtain ⟨word, copy_tgt⟩ := wc
    by_cases h : word = pad
    · subst h
      simp [generatorTrainLoopPerStepDraw, generatorTrainLoop]
    · simp only [generatorTrainLoopPerStepDraw, generatorTrainLoop, if_neg h]
      cases g.forward input hidden cell with
      | none => rfl
      | some val =>
        dsimp only
        obtain ⟨out_prob, copy_prob, p_copy, hidden', cell'⟩ := val
        cases copy_tgt with
        | true =>
          cases copyIdxs with
          | nil => rfl
          | cons ci cis =>
            dsimp only
            by_cases hr : r < tfProb
            · have hd : (decide (r < tfProb)) = true := by simpa using hr
              rw [if_pos hr, if_pos hd]
              exact ih _ _ _ _ _ _ _
            · have hd : ¬((decide (r < tfProb)) = true) := by simpa using hr
              rw [if_neg hr, if_neg hd]
              exact ih _ _ _ _ _ _ _
        | false =>
          dsimp only
          by_cases hr : r < tfProb
          · have hd : (decide (r < tfProb)) = true := by simpa using hr
            rw [if_pos hr, if_pos hd]
            exact ih _ _ _ _ _ _ _
          · have hd : ¬((decide (r < tfProb)) = true) := by simpa using hr
            rw [if_neg hr, if_neg hd]
            exact ih _ _ _ _ _ _ _

/-! ## Claims -/

/-- C1: for every training example, the planner's training decode loop
stops at the first position where the gold content plan equals the padding
sentinel and that position contributes nothing to the training loss (the
loop behaves exactly as on the pad-free prefix of the gold plan); at
inference, the planner's decode loop stops as soon as the predicted index
equals the EOS sentinel — before appending it — or when the maximum plan
length `maxLen` (= `content_plan.size(1)`) is reached, so the generated
plan always exists and never exceeds `maxLen` entries. -/
theorem planner_decode_termination :
    ∀ (Rec Row Att : Type) [Inhabited Row] (cp : ContentPlanner Rec Row Att),
    (∀ (pad : Nat) (tf : Bool) (plan : List Nat) (input : Nat)
      (hidden cell : Row) (loss : Option Rat) (len : Nat),
      plannerTrainLoop cp pad tf plan input hidden cell loss len =
        plannerTrainLoop cp pad tf (plan.takeWhile (· != pad)) input hidden
          cell loss len) ∧
    (∀ (records : List Rec) (bos eos maxLen : Nat),
      ∃ res, plannerEvaluate cp records bos eos maxLen = some res ∧
        res.length ≤ maxLen ∧ eos ∉ res) := by
  intro Rec Row Att _ cp
  refine ⟨fun pad tf plan input hidden cell loss len =>
    plannerTrainLoop_takeWhile cp pad tf plan input hidden cell loss len, ?_⟩
  intro records bos eos maxLen
  unfold plannerEvaluate
  obtain ⟨res, hres, hlen, hmem⟩ :=
    plannerEvalLoop_spec maxLen (cp.init_hidden records).2
      (cp.record_encoder.forward records).1 eos maxLen bos
      (cp.init_hidden records).1.1 (cp.init_hidden records).1.2 []
      (by simp) rfl (by simp) (by simp)
  exact ⟨res, hres, hlen, hmem⟩

/-- C2, counterexample: on a concrete text generator, one decoder step does
NOT return the recurrent step's hidden state.  The recurrent step on the
embedded word 2 with state (3, 4) yields output 302 and final hidden state
3002, but the `new_hidden` slot of the returned tuple is 3020322 — the
reshaped tanh projection of the concatenated recurrent output and attention
context — which differs from both.  (The returned cell, 5, does equal the
recurrent cell state.) -/
theorem text_decoder_step_state_cex :
    cGenerator.forward 2 3 4 = some (3020319, 307, 0, 3020322, 5) ∧
    cGenerator.decoder_rnn (cGenerator.embedding 2) (3, 4) =
      (302, (3002, 5)) ∧
    (3020322 : Nat) ≠ 3002 ∧ (3020322 : Nat) ≠ 302 := by
  refine ⟨rfl, rfl, by decide, by decide⟩

/-- C2, amended: one step of the text decoder returns as its new cell
exactly the cell state produced by the single recurrent step over the
embedded input word; the new hidden slot of the output tuple, however, is
not the recurrent step's hidden state (which is discarded) but the reshaped
`tanh_mlp` projection of the concatenation of the recurrent output with the
attention-selected context. -/
theorem text_decoder_step_state :
    ∀ (V : Type) (g : TextGenerator V) (enc : V) (word : Nat)
      (hidden cell : V),
    TextGenerator.forward { g with encoded := some enc } word hidden cell =
      some (let step := g.decoder_rnn (g.embedding word) (hidden, cell)
            let attention := g.softmax (g.bmm step.1
              (g.transpose (g.linear enc)))
            let selected := g.bmm attention enc
            let nh := g.tanh_mlp (g.cat2 step.1 selected)
            (g.soft_mlp nh, g.logT attention, g.sig_copy nh, g.reshape nh,
              step.2.2)) :=
  fun _ _ _ _ _ _ => rfl

/-- C3, counterexample: the draw from the random source happens once per
training example, not once per decode step.  On a concrete planner with
teacher-forcing probability 1/2 and the draw stream (3/4, 1/4, 1/4, …),
the code's update (single pre-loop draw 3/4, hence no teacher forcing at
any step) returns −1400/3, while the spec's per-step-draw process (argmax
at step 1, gold input at step 2) returns −400. -/
theorem teacher_forcing_per_step_cex :
    plannerUpdate cPlanner [0] [0, 1, 1, 1, 9] 9 (1/2) cRng =
      .ok (-1400/3) ∧
    plannerUpdatePerStepDraw cPlanner [0] [0, 1, 1, 1, 9] 9 (1/2) cRng =
      .ok (-400) ∧
    ((-1400 : Rat)/3 ≠ -400) := by
  have h0 : ((3:Rat)/4 < 1/2) = False := by norm_num
  have h1 : ((1:Rat)/4 < 1/2) = True := by norm_num
  refine ⟨?_, ?_, by norm_num⟩
  · norm_num [plannerUpdate, plannerTrainLoop, ContentPlanner.init_hidden,
      ContentPlanner.forward, RecordEncoder.forward, cPlanner, cRecordEncoder,
      cRng, nllLoss, listArgmax, listArgmax.go, h0, h1]
  · norm_num [plannerUpdatePerStepDraw, plannerTrainLoopPerStepDraw,
      ContentPlanner.init_hidden, ContentPlanner.forward, RecordEncoder.forward,
      cPlanner, cRecordEncoder, cRng, nllLoss, listArgmax, listArgmax.go, h0, h1]

/-- C3, amended: in training of both the planner and the generator, the
choice between the teacher-forced and the model-predicted input path is
made once per training example by a single pre-loop draw from the random
source; every decode step of the example then uses that same branch.
Formally: each update only consumes draw 0 of its stream, and the code's
decode loop coincides with the spec's per-step-draw loop exactly when every
per-step draw repeats the single pre-loop draw. -/
theorem teacher_forcing_single_draw :
    ∀ (Rec Row Att V : Type) [Inhabited Row]
      (cp : ContentPlanner Rec Row Att) (records : List Rec)
      (plan : List Nat) (pad : Nat) (tfProb r : Rat) (rng : Nat → Rat)
      (g : TextGenerator V) (ops : TorchOps V) (grecords : V)
      (text : List (Nat × Bool)) (copyIdxs : List Nat)
      (copy_values : Nat → Nat),
    plannerUpdate cp records plan pad tfProb rng =
      plannerUpdate cp records plan pad tfProb (fun _ => rng 0) ∧
    generatorUpdate g ops grecords text copyIdxs copy_values pad tfProb rng =
      generatorUpdate g ops grecords text copyIdxs copy_values pad tfProb
        (fun _ => rng 0) ∧
    (∀ (k input : Nat) (hidden cell : Row) (loss : Option Rat) (len : Nat),
      plannerTrainLoopPerStepDraw cp pad tfProb (fun _ => r) plan k input
          hidden cell loss len =
        plannerTrainLoop cp pad (decide (r < tfProb)) plan input hidden cell
          loss len) ∧
    (∀ (k input : Nat) (hidden cell : V) (loss : Option Rat) (len : Nat),
      generatorTrainLoopPerStepDraw g ops pad tfProb (fun _ => r) copy_values
          text copyIdxs k input hidden cell loss len =
        generatorTrainLoop g ops pad (decide (r < tfProb)) copy_values text
          copyIdxs input hidden cell loss len) := by
  intro Rec Row Att V _ cp records plan pad tfProb r rng g ops grecords text
    copyIdxs copy_values
  refine ⟨rfl, rfl, ?_, ?_⟩
  · intro k input hidden cell loss len
    exact plannerPerStepDraw_const cp pad tfProb r plan k input hidden cell
      loss len
  · intro k input hidden cell loss len
    exact generatorPerStepDraw_const g ops pad tfProb r copy_values text
      copyIdxs k input hidden cell loss len

/-- C4: for every evaluation example, greedy text generation halts and
raises no error, whatever the model predicts: the result exists (`some`),
the text — which starts with the BOS token — never holds more than the
initial BOS plus 500 generated tokens, and the loop ends either because the
chosen word is the EOS sentinel or because the 500-token cap was hit
exactly; truncation by the cap is silent. -/
theorem generator_eval_cap :
    ∀ (V : Type) (g : TextGenerator V) (records : V)
      (copy_values : Nat → Nat) (bos eos : Nat),
    ∃ text, test_random g records copy_values bos eos = some text ∧
      text.length ≤ 501 ∧ (text.getLast? = some eos ∨ text.length = 501) := by
  intro V g records copy_values bos eos
  unfold test_random
  obtain ⟨res, hres, hlen, _, hlast⟩ :=
    testRandomLoop_spec 501 (g.init_hidden records).2
      (g.encode_recods records).1 copy_values eos bos
      (g.init_hidden records).1.1 (g.init_hidden records).1.2 [bos]
      (by simp) rfl (by simp) (by simp) (by simp)
  exact ⟨res, hres, hlen, hlast⟩

/-- C5, counterexample: on a content plan with no non-padding position
after the initial token, the planner's training update faults — but not
with a division by zero: the fault is `loss.backward()` on the integer `0`
(an `AttributeError`), raised before the length normalisation is ever
reached. -/
theorem malformed_batch_fault_cex :
    plannerUpdate cPlanner [0] [0, 9, 9] 9 1 (fun _ => 0) =
      .error .intBackward ∧
    (Except.error PyFault.intBackward : Except PyFault Rat) ≠
      .error .divByZero := by
  constructor
  · simp [plannerUpdate, plannerTrainLoop]
  · simp

/-- C5, amended: an input whose content plan or text sequence has no
non-padding position after the initial token is not guarded and makes the
training update raise a runtime fault — but the fault is `loss.backward()`
called on the never-updated integer loss `0`, not a division by zero: the
division in the length-normalised loss is never reached, in either module,
on any input. -/
theorem malformed_batch_fault :
    ∀ (Rec Row Att V : Type) [Inhabited Row] (cp : ContentPlanner Rec Row Att)
      (records : List Rec) (pad : Nat) (tfProb : Rat) (rng : Nat → Rat)
      (g : TextGenerator V) (ops : TorchOps V) (grecords : V)
      (copyIdxs : List Nat) (copy_values : Nat → Nat),
    (∀ (input : Nat) (rest : List Nat),
      plannerUpdate cp records (input :: pad :: rest) pad tfProb rng =
        .error .intBackward) ∧
    (∀ (input : Nat),
      plannerUpdate cp records [input] pad tfProb rng = .error .intBackward) ∧
    (∀ (input : Nat) (b b' : Bool) (rest : List (Nat × Bool)),
      generatorUpdate g ops grecords ((input, b) :: (pad, b') :: rest) copyIdxs
        copy_values pad tfProb rng = .error .intBackward) ∧
    (∀ (input : Nat) (b : Bool),
      generatorUpdate g ops grecords [(input, b)] copyIdxs copy_values pad
        tfProb rng = .error .intBackward) ∧
    (∀ (plan : List Nat),
      plannerUpdate cp records plan pad tfProb rng ≠ .error .divByZero) ∧
    (∀ (text : List (Nat × Bool)),
      generatorUpdate g ops grecords text copyIdxs copy_values pad tfProb
        rng ≠ .error .divByZero) := by
  intro Rec Row Att V _ cp records pad tfProb rng g ops grecords copyIdxs
    copy_values
  refine ⟨?_, ?_, ?_, ?_, ?_, ?_⟩
  · intro input rest
    simp [plannerUpdate, plannerTrainLoop]
  · intro input
    simp [plannerUpdate, plannerTrainLoop]
  · intro input b b' rest
    simp [generatorUpdate, generatorTrainLoop]
  · intro input b
    simp [generatorUpdate, generatorTrainLoop]
  · intro plan
    exact plannerUpdate_ne_div cp records plan pad tfProb rng
  · intro text
    exact generatorUpdate_ne_div g ops grecords text copyIdxs copy_values pad
      tfProb rng

/-- C6, counterexample: even on a filesystem where every persisted model
file exists (so `planner_is_available` holds), the program startup
(`src/main.py`) still executes the planner training path — the existence of
`models/content_planner.pt` does not short-circuit training at startup. -/
theorem startup_short_circuit_cex :
    planner_is_available (fun _ => true) = true ∧
    StartupAction.trainPlanner ∈ mainActions (fun _ => true) := by
  constructor
  · rfl
  · simp [mainActions]

/-- C6, amended: the generator's loader does short-circuit — when
`models/text_generator.pt` exists, `get_generator` only loads the stored
parameters and never trains — and `load_planner` loads
`models/content_planner.pt` when it exists; but the program startup
(`src/main.py`) never consults either file: it unconditionally runs the
planner training path (and does not invoke the generator stage at all). -/
theorem startup_short_circuit :
    ∀ (fs : String → Bool),
    (fs "models/text_generator.pt" = true →
      getGeneratorActions fs = [.loadGeneratorFile] ∧
      StartupAction.trainGenerator ∉ getGeneratorActions fs) ∧
    (fs "models/content_planner.pt" = true →
      load_planner fs = some .loadedFromFile) ∧
    StartupAction.trainPlanner ∈ mainActions fs := by
  intro fs
  refine ⟨fun h => ?_, fun h => ?_, by simp [mainActions]⟩
  · constructor
    · simp [getGeneratorActions, h]
    · simp [getGeneratorActions, h]
  · simp [load_planner, h]

/-- C6, witness for the amended theorem: on the filesystem where every
file exists, the generator loader performs exactly the load action and the
startup still trains the planner. -/
theorem startup_short_circuit_witness :
    ((fun _ : String => true) "models/text_generator.pt" = true) ∧
    getGeneratorActions (fun _ => true) = [.loadGeneratorFile] ∧
    StartupAction.trainGenerator ∉ getGeneratorActions (fun _ => true) ∧
    load_planner (fun _ => true) = some .loadedFromFile ∧
    StartupAction.trainPlanner ∈ mainActions (fun _ => true) := by
  have h := startup_short_circuit (fun _ => true)
  exact ⟨rfl, (h.1 rfl).1, (h.1 rfl).2, h.2.1 rfl, h.2.2⟩

/-- C7: with teacher-forcing ratio 1 and any draws strictly below 1 (as
`random()` always returns), the value drawn from the random source cannot
change either module's training update: the input-selection branch always
takes the gold-input path, so training is deterministic in the draws. -/
theorem teacher_forcing_one_deterministic :
    ∀ (Rec Row Att V : Type) [Inhabited Row]
      (cp : ContentPlanner Rec Row Att) (records : List Rec)
      (plan : List Nat) (pad : Nat) (g : TextGenerator V) (ops : TorchOps V)
      (grecords : V) (text : List (Nat × Bool)) (copyIdxs : List Nat)
      (copy_values : Nat → Nat) (r1 r2 : Rat),
    r1 < 1 → r2 < 1 →
    plannerUpdate cp records plan pad 1 (fun _ => r1) =
      plannerUpdate cp records plan pad 1 (fun _ => r2) ∧
    generatorUpdate g ops grecords text copyIdxs copy_values pad 1
        (fun _ => r1) =
      generatorUpdate g ops grecords text copyIdxs copy_values pad 1
        (fun _ => r2) := by
  intro Rec Row Att V _ cp records plan pad g ops grecords text copyIdxs
    copy_values r1 r2 hr1 hr2
  have e1 : (decide (r1 < (1 : Rat))) = true := decide_eq_true hr1
  have e2 : (decide (r2 < (1 : Rat))) = true := decide_eq_true hr2
  constructor
  · simp only [plannerUpdate, e1, e2]
  · simp only [generatorUpdate, e1, e2]

/-- C7, witness: the concrete planner and generator updates agree for the
draws 0 and 1/2 at teacher-forcing ratio 1. -/
theorem teacher_forcing_one_deterministic_witness :
    ((0 : Rat) < 1 ∧ (1/2 : Rat) < 1) ∧
    plannerUpdate cPlanner [0] [0, 1, 1, 1, 9] 9 1 (fun _ => (0 : Rat)) =
      plannerUpdate cPlanner [0] [0, 1, 1, 1, 9] 9 1 (fun _ => (1/2 : Rat)) ∧
    generatorUpdate cGenerator cOps 5 [(1, false)] [] (fun n => n) 9 1
        (fun _ => (0 : Rat)) =
      generatorUpdate cGenerator cOps 5 [(1, false)] [] (fun n => n) 9 1
        (fun _ => (1/2 : Rat)) :=
  ⟨⟨by norm_num, by norm_num⟩,
    (teacher_forcing_one_deterministic Nat Nat Nat Nat cPlanner [0]
      [0, 1, 1, 1, 9] 9 cGenerator cOps 5 [(1, false)] [] (fun n => n) 0 (1/2)
      (by norm_num) (by norm_num)).1,
    (teacher_forcing_one_deterministic Nat Nat Nat Nat cPlanner [0]
      [0, 1, 1, 1, 9] 9 cGenerator cOps 5 [(1, false)] [] (fun n => n) 0 (1/2)
      (by norm_num) (by norm_num)).2⟩

/-- C8: after `encode` (the record encoder's `forward`), `get(indices)`
returns exactly the rows of `forward`'s output at those indices; the
encoding does not depend on any previously cached value, and retrieval
depends only on the cached slot (no recomputation through the network
fields, no hidden coupling beyond the single-slot cache). -/
theorem record_encoder_cache_get :
    ∀ (Rec Row Att : Type) [Inhabited Row] (e e' : RecordEncoder Rec Row Att)
      (records : List Rec) (index : List Nat) (prior v : Option (List Row)),
    ((e.forward records).2.get_encodings index =
      some (index.map fun i => (e.forward records).1.getD i default)) ∧
    (RecordEncoder.forward { e with encoded := prior } records).1 =
      (e.forward records).1 ∧
    RecordEncoder.get_encodings { e with encoded := v } index =
      RecordEncoder.get_encodings { e' with encoded := v } index :=
  fun _ _ _ _ _ _ _ _ _ _ => ⟨rfl, rfl, rfl⟩

/-- C9: every decode or gather step requires that an encode ran earlier on
the same instance: with the single-slot cache still `None` (its state after
`__init__`), `ContentPlanner.forward`, `RecordEncoder.get_encodings` and
`TextGenerator.forward` all fault; and the corresponding `init_hidden` /
encoder `forward` calls are exactly what fill the caches. -/
theorem cache_precondition_faults :
    ∀ (Rec Row Att V : Type) [Inhabited Row] (cp : ContentPlanner Rec Row Att)
      (e : RecordEncoder Rec Row Att) (g : TextGenerator V)
      (records : List Rec) (grecords : V) (i : Nat) (hidden cell : Row)
      (index : List Nat) (w : Nat) (hv cv : V),
    ContentPlanner.forward { cp with selected_content := none } i hidden
      cell = none ∧
    RecordEncoder.get_encodings { e with encoded := none } index = none ∧
    TextGenerator.forward { g with encoded := none } w hv cv = none ∧
    ((cp.init_hidden records).2).selected_content =
      some (cp.record_encoder.forward records).1 ∧
    ((cp.init_hidden records).2).record_encoder.encoded =
      some (cp.record_encoder.forward records).1 ∧
    ((g.init_hidden grecords).2).encoded = some (g.encode_recods grecords).1 :=
  fun _ _ _ _ _ _ _ _ _ _ _ _ _ _ _ _ _ => ⟨rfl, rfl, rfl, rfl, rfl, rfl⟩

/-- C10: greedy evaluation treats the end sentinel asymmetrically: the
planner's evaluation loop never appends the EOS index to the generated plan
(it breaks before appending), whereas the generator's evaluation starts the
text with the BOS token and appends the chosen EOS before halting — so the
generated plan never holds EOS, while a generated text starts with BOS and,
unless the length cap struck, ends with EOS. -/
theorem eos_asymmetry :
    ∀ (Rec Row Att V : Type) [Inhabited Row] (cp : ContentPlanner Rec Row Att)
      (records : List Rec) (bos eos maxLen : Nat) (g : TextGenerator V)
      (grecords : V) (copy_values : Nat → Nat) (gbos geos : Nat),
    (∃ res, plannerEvaluate cp records bos eos maxLen = some res ∧
      eos ∉ res) ∧
    (∃ text, test_random g grecords copy_values gbos geos = some text ∧
      text.head? = some gbos ∧
      (text.getLast? = some geos ∨ text.length = 501)) := by
  intro Rec Row Att V _ cp records bos eos maxLen g grecords copy_values gbos
    geos
  constructor
  · unfold plannerEvaluate
    obtain ⟨res, hres, _, hmem⟩ :=
      plannerEvalLoop_spec maxLen (cp.init_hidden records).2
        (cp.record_encoder.forward records).1 eos maxLen bos
        (cp.init_hidden records).1.1 (cp.init_hidden records).1.2 []
        (by simp) rfl (by simp) (by simp)
    exact ⟨res, hres, hmem⟩
  · unfold test_random
    obtain ⟨res, hres, _, hhead, hlast⟩ :=
      testRandomLoop_spec 501 (g.init_hidden grecords).2
        (g.encode_recods grecords).1 copy_values geos gbos
        (g.init_hidden grecords).1.1 (g.init_hidden grecords).1.2 [gbos]
        (by simp) rfl (by simp) (by simp) (by simp)
    exact ⟨res, hres, by simpa using hhead, hlast⟩

end Data2Text
